import Mathlib

/-!
Verification of the eng-kz language-learning application core.

Shallow embedding of the repository's TypeScript source:
  * types (src/unnamed/part_002)
  * geminiService content generation and caching (src/unnamed/part_003)
  * TopicView session controller (src/unnamed/part_001)
  * ExamView exam controller and Quiz scoring (src/components/Quiz.tsx)
  * App-level user/account handlers (src/App.tsx)

React's single-threaded event-driven execution model is embedded as an
explicit step function on a state structure; asynchronous callback
continuations are separate events, and a closure's captured render
snapshot is stored explicitly in the state where the source captures it.
-/

/-- Proficiency levels (src/unnamed/part_002: `Level`). -/
inductive Level where
  | A1
  | A2
  | B1
  | B2
deriving DecidableEq, Repr

/-- String form of a level, as interpolated into cache keys. -/
def levelStr : Level → String
  | .A1 => "A1"
  | .A2 => "A2"
  | .B1 => "B1"
  | .B2 => "B2"

/-- Content sections of a topic (src/unnamed/part_002: `ContentSectionType`). -/
inductive ContentSectionType where
  | lesson
  | practice
deriving DecidableEq, Repr

/-- A user's progress on one topic (src/unnamed/part_002: `TopicProgress`). -/
structure TopicProgress where
  completedVocabulary : List String
  completedSections : List ContentSectionType
deriving DecidableEq, Repr

/-- A partial progress update, as passed to `handleProgressUpdate`
(src/unnamed/part_001 line 65): present fields replace, absent fields keep. -/
structure TopicProgressUpdate where
  completedVocabulary : Option (List String)
  completedSections : Option (List ContentSectionType)
deriving DecidableEq, Repr

/-- JS object spread `{ ...progress, ...updates }` from
`handleProgressUpdate` (src/unnamed/part_001 lines 65-68). -/
def mergeProgress (progress : TopicProgress) (updates : TopicProgressUpdate) : TopicProgress :=
  { completedVocabulary := updates.completedVocabulary.getD progress.completedVocabulary
    completedSections := updates.completedSections.getD progress.completedSections }

/-- `handleVocabToggle` core (src/unnamed/part_001 lines 70-76): if the word
is present, filter it out, otherwise append it. -/
def vocabToggle (completed : List String) (targetWord : String) : List String :=
  if targetWord ∈ completed then
    completed.filter (fun word => word != targetWord)
  else
    completed ++ [targetWord]

/-- Full vocabulary-toggle progress mutation (src/unnamed/part_001 lines
70-76 followed by `handleProgressUpdate`). -/
def vocabToggleProgress (progress : TopicProgress) (targetWord : String) : TopicProgress :=
  mergeProgress progress
    { completedVocabulary := some (vocabToggle progress.completedVocabulary targetWord)
      completedSections := none }

/-- Section-completion mark performed on fetch success (src/unnamed/part_001
lines 46-48 and 110-112): only update when the section is not already
present, and then merge the appended section list. -/
def markSectionComplete (progress : TopicProgress) (s : ContentSectionType) : TopicProgress :=
  if s ∈ progress.completedSections then
    progress
  else
    mergeProgress progress
      { completedVocabulary := none
        completedSections := some (progress.completedSections ++ [s]) }

theorem vocabToggle_of_mem {S : List String} {w : String} (h : w ∈ S) :
    vocabToggle S w = S.filter (fun v => v != w) := by
  simp [vocabToggle, h]

theorem vocabToggle_of_not_mem {S : List String} {w : String} (h : w ∉ S) :
    vocabToggle S w = S ++ [w] := by
  simp [vocabToggle, h]

theorem filter_bne_eq_erase {S : List String} (hS : S.Nodup) (w : String) :
    S.filter (fun v => v != w) = S.erase w :=
  (List.Nodup.erase_eq_filter hS w).symm

theorem vocabToggle_nodup {S : List String} (hS : S.Nodup) (w : String) :
    (vocabToggle S w).Nodup := by
  by_cases h : w ∈ S
  · rw [vocabToggle_of_mem h]
    exact hS.filter _
  · rw [vocabToggle_of_not_mem h]
    simp [List.nodup_append, hS, h]

theorem vocabToggle_mem_iff {S : List String} (w v : String) :
    v ∈ vocabToggle S w ↔ (if v = w then w ∉ S else v ∈ S) := by
  by_cases h : w ∈ S
  · rw [vocabToggle_of_mem h]
    by_cases hvw : v = w <;> simp [List.mem_filter, hvw, h, bne_iff_ne]
  · rw [vocabToggle_of_not_mem h]
    by_cases hvw : v = w <;> simp [hvw, h]

theorem vocabToggle_toggle_perm {S : List String} (hS : S.Nodup) (w : String) :
    (vocabToggle (vocabToggle S w) w).Perm S := by
  by_cases h : w ∈ S
  · rw [vocabToggle_of_mem h]
    have hw : w ∉ S.filter (fun v => v != w) := by
      simp [List.mem_filter, bne_iff_ne]
    rw [vocabToggle_of_not_mem hw, filter_bne_eq_erase hS]
    exact (List.perm_append_singleton w _).trans (List.perm_cons_erase h).symm
  · rw [vocabToggle_of_not_mem h]
    have hw : w ∈ S ++ [w] := by simp
    rw [vocabToggle_of_mem hw]
    have h2 : (S ++ [w]).filter (fun v => v != w) = S := by
      rw [List.filter_append]
      have h1 : S.filter (fun v => v != w) = S :=
        List.filter_eq_self.mpr (fun a ha => by
          simp only [bne_iff_ne, ne_eq, decide_eq_true_eq]
          rintro rfl
          exact h ha)
      simp [h1]
    rw [h2]

/-- A quiz question (src/unnamed/part_002: `QuizQuestion`); the `type` field
is the constant string literal `multiple-choice` and is omitted. -/
structure QuizQuestion where
  question : String
  options : List String
  correctAnswer : String
  explanation : Option String
deriving DecidableEq, Repr

/-- One invocation of `onSaveResult` (src/components/Quiz.tsx `finishExam`):
the score/total pair handed up to the app shell. -/
structure SavedResult where
  score : Nat
  total : Nat
deriving DecidableEq, Repr

/-- `EXAM_DURATION = 30 * 60` seconds (src/components/Quiz.tsx). -/
def EXAM_DURATION : Nat := 30 * 60

/-- The `ExamView` component state (src/components/Quiz.tsx, ExamView part):
one field per `useState` hook, plus `savedResults` recording the sequence of
`onSaveResult` invocations. -/
structure ExamState where
  questions : Option (List QuizQuestion)
  isLoading : Bool
  error : Option String
  examStarted : Bool
  examFinished : Bool
  timeLeft : Nat
  currentQuestionIndex : Nat
  answers : List (Option String)
  savedResults : List SavedResult
deriving DecidableEq, Repr

/-- Initial hook values of `ExamView` on mount. -/
def examInit : ExamState :=
  { questions := none
    isLoading := true
    error := none
    examStarted := false
    examFinished := false
    timeLeft := EXAM_DURATION
    currentQuestionIndex := 0
    answers := []
    savedResults := [] }

/-- One step of the JS reduce body in `calculateScore`: compare the stored
answer with `questions[index].correctAnswer`. An out-of-range index never
matches (in the component, `answers` is pre-sized to `questions.length`, so
the index is always in range). -/
def answerMatches (qs : List QuizQuestion) (index : Nat) (answer : Option String) : Bool :=
  match qs.get? index with
  | some q =>
      match answer with
      | some a => a == q.correctAnswer
      | none => false
  | none => false

/-- `calculateScore` (src/components/Quiz.tsx lines 150-158): `answers.reduce`
with index, adding 1 whenever the stored answer equals the question's
`correctAnswer`; returns 0 when `questions` is null. -/
def calculateScore (questions : Option (List QuizQuestion)) (answers : List (Option String)) : Nat :=
  match questions with
  | none => 0
  | some qs =>
      answers.enum.foldl
        (fun score p => if answerMatches qs p.1 p.2 then score + 1 else score) 0

/-- Render guard: the exam content screens are reachable only past the
loading, error and missing-question early returns (Quiz.tsx lines 201-203). -/
def examContentShown (s : ExamState) : Bool :=
  !s.isLoading && s.error == none && s.questions.isSome

/-- Render guard for the pre-start screen (Quiz.tsx line 205). -/
def startScreenShown (s : ExamState) : Bool :=
  examContentShown s && !s.examStarted

/-- Render guard for the in-progress exam screen (reached when neither the
start screen nor the finished screen returned, Quiz.tsx lines 205-234). -/
def examScreenShown (s : ExamState) : Bool :=
  examContentShown s && s.examStarted && !s.examFinished

/-- The Finish Exam button is rendered on the last question only
(Quiz.tsx line 266: `currentQuestionIndex === questions.length - 1`). -/
def finishButtonShown (s : ExamState) : Bool :=
  examScreenShown s &&
    (match s.questions with
     | some qs => s.currentQuestionIndex + 1 == qs.length
     | none => false)

/-- `finishExam` (src/components/Quiz.tsx lines 160-166): mark finished,
clear started, and if questions are present report one result upward. -/
def finishExamFn (s : ExamState) : ExamState :=
  let s1 := { s with examFinished := true, examStarted := false }
  match s.questions with
  | some qs =>
      { s1 with savedResults :=
          s1.savedResults ++ [⟨calculateScore s.questions s.answers, qs.length⟩] }
  | none => s1

/-- Events of the exam controller: resolution of the mount-time fetch,
user clicks, and the one-second timer firing. -/
inductive ExamEvent where
  | fetchSuccess (qs : List QuizQuestion)
  | fetchFailure (msg : String)
  | clickStart
  | selectAnswer (opt : String)
  | clickNext
  | clickPrev
  | tick
  | clickFinish
deriving DecidableEq, Repr

/-- One event of the exam controller, guarded exactly as the source guards
it: fetch continuations apply only to the single mount-time fetch; click
handlers fire only when their button is rendered and enabled; the timer
effect body re-checks `examStarted`/`examFinished` and finishes when the
countdown is exhausted (Quiz.tsx lines 133-199, 211, 254-269). -/
def stepExam (s : ExamState) (e : ExamEvent) : ExamState :=
  match e with
  | .fetchSuccess qs =>
      if s.isLoading then
        { s with questions := some qs
                 answers := List.replicate qs.length none
                 isLoading := false }
      else s
  | .fetchFailure msg =>
      if s.isLoading then { s with error := some msg, isLoading := false } else s
  | .clickStart =>
      if startScreenShown s then { s with examStarted := true } else s
  | .selectAnswer opt =>
      if examScreenShown s then
        { s with answers := s.answers.set s.currentQuestionIndex (some opt) }
      else s
  | .clickNext =>
      if examScreenShown s then
        match s.questions with
        | some qs =>
            if s.currentQuestionIndex + 1 < qs.length then
              { s with currentQuestionIndex := s.currentQuestionIndex + 1 }
            else s
        | none => s
      else s
  | .clickPrev =>
      if examScreenShown s then
        if 0 < s.currentQuestionIndex then
          { s with currentQuestionIndex := s.currentQuestionIndex - 1 }
        else s
      else s
  | .tick =>
      if !s.examStarted || s.examFinished then s
      else if s.timeLeft = 0 then finishExamFn s
      else { s with timeLeft := s.timeLeft - 1 }
  | .clickFinish =>
      if finishButtonShown s then finishExamFn s else s

/-- Run the exam controller from a given state over an event sequence. -/
def runExamFrom (s : ExamState) (evs : List ExamEvent) : ExamState :=
  evs.foldl stepExam s

/-- Run the exam controller from its mount state. -/
def runExam (evs : List ExamEvent) : ExamState :=
  runExamFrom examInit evs

theorem foldl_count {α : Type} (f : α → Bool) :
    ∀ (l : List α) (n : Nat),
      l.foldl (fun acc x => if f x then acc + 1 else acc) n = n + l.countP f
  | [], n => by simp
  | a :: l, n => by
    simp only [List.foldl_cons, List.countP_cons, foldl_count f l]
    by_cases h : f a
    · simp only [h, if_true]
      omega
    · simp [h]


theorem enumFrom_countP_answerMatches (qs : List QuizQuestion) :
    ∀ (k : Nat) (answers : List (Option String)),
      (answers.enumFrom k).countP (fun p => answerMatches qs p.1 p.2)
        = (List.range answers.length).countP
            (fun i => answerMatches qs (k + i) (answers.getD i none))
  | _, [] => by simp
  | k, a :: rest => by
    simp only [List.enumFrom, List.countP_cons, List.length_cons,
      List.range_succ_eq_map, List.countP_map]
    rw [enumFrom_countP_answerMatches qs (k + 1) rest]
    have harg : (fun i => answerMatches qs (k + 1 + i) (rest.getD i none))
        = ((fun i => answerMatches qs (k + i) ((a :: rest).getD i none)) ∘ Nat.succ) := by
      funext i
      have h1 : k + 1 + i = k + (i + 1) := by omega
      simp [Function.comp, h1, List.getD_cons_succ]
    rw [harg]
    have h0 : (a :: rest).getD 0 none = a := rfl
    simp [h0]

theorem calculateScore_eq_countP (qs : List QuizQuestion) (answers : List (Option String)) :
    calculateScore (some qs) answers
      = (List.range answers.length).countP
          (fun i => answerMatches qs i (answers.getD i none)) := by
  show answers.enum.foldl
      (fun score p => if answerMatches qs p.1 p.2 then score + 1 else score) 0
    = _
  rw [foldl_count (fun p => answerMatches qs p.1 p.2) answers.enum 0]
  rw [show answers.enum = answers.enumFrom 0 from rfl]
  rw [enumFrom_countP_answerMatches qs 0 answers]
  simp

theorem answerMatches_iff (qs : List QuizQuestion) (i : Nat) (a : Option String) :
    answerMatches qs i a = true
      ↔ (a ≠ none ∧ a = (qs.get? i).map QuizQuestion.correctAnswer) := by
  unfold answerMatches
  cases hq : qs.get? i <;> cases a <;> simp

theorem examContentShown_isSome {s : ExamState} (h : examContentShown s = true) :
    s.questions.isSome = true := by
  unfold examContentShown at h
  simp only [Bool.and_eq_true] at h
  exact h.2

theorem startScreenShown_props {s : ExamState} (h : startScreenShown s = true) :
    s.questions.isSome = true ∧ s.examStarted = false := by
  unfold startScreenShown at h
  simp only [Bool.and_eq_true, Bool.not_eq_true'] at h
  exact ⟨examContentShown_isSome h.1, h.2⟩

theorem examScreenShown_props {s : ExamState} (h : examScreenShown s = true) :
    s.questions.isSome = true ∧ s.examStarted = true ∧ s.examFinished = false := by
  unfold examScreenShown at h
  simp only [Bool.and_eq_true, Bool.not_eq_true'] at h
  exact ⟨examContentShown_isSome h.1.1, h.1.2, h.2⟩

theorem finishButtonShown_props {s : ExamState} (h : finishButtonShown s = true) :
    s.questions.isSome = true ∧ s.examStarted = true ∧ s.examFinished = false := by
  unfold finishButtonShown at h
  simp only [Bool.and_eq_true] at h
  exact examScreenShown_props h.1

theorem finishExamFn_fields (s : ExamState) :
    (finishExamFn s).examFinished = true ∧ (finishExamFn s).examStarted = false := by
  unfold finishExamFn
  cases s.questions <;> simp

theorem finishExamFn_savedResults {s : ExamState} {qs : List QuizQuestion}
    (h : s.questions = some qs) :
    (finishExamFn s).savedResults
      = s.savedResults ++ [⟨calculateScore s.questions s.answers, qs.length⟩] := by
  unfold finishExamFn
  rw [h]

/-- Reachability invariant of the exam controller: the number of results
reported upward is 0 before the Finished transition and 1 after it, and a
started exam always has its question set loaded. -/
def examInv (s : ExamState) : Prop :=
  s.savedResults.length = (if s.examFinished then 1 else 0)
  ∧ (s.examStarted = true → s.questions.isSome = true)

theorem examInv_init : examInv examInit := by
  constructor <;> simp [examInit]

theorem examInv_finish {s : ExamState} (hInv : examInv s)
    (hF : s.examFinished = false) (hQ : s.questions.isSome = true) :
    examInv (finishExamFn s) := by
  obtain ⟨qs, hqs⟩ := Option.isSome_iff_exists.mp hQ
  constructor
  · rw [finishExamFn_savedResults hqs, (finishExamFn_fields s).1]
    simp only [List.length_append, List.length_cons, List.length_nil, if_true]
    rw [hInv.1, hF]
    simp
  · intro hSt
    rw [(finishExamFn_fields s).2] at hSt
    exact absurd hSt (by simp)

theorem examInv_step {s : ExamState} (e : ExamEvent) (hInv : examInv s) :
    examInv (stepExam s e) := by
  obtain ⟨h1, h2⟩ := hInv
  cases e with
  | fetchSuccess qs =>
      simp only [stepExam]
      split
      · exact ⟨h1, fun _ => rfl⟩
      · exact ⟨h1, h2⟩
  | fetchFailure msg =>
      simp only [stepExam]
      split
      · exact ⟨h1, h2⟩
      · exact ⟨h1, h2⟩
  | clickStart =>
      simp only [stepExam]
      split
      · next hS => exact ⟨h1, fun _ => (startScreenShown_props hS).1⟩
      · exact ⟨h1, h2⟩
  | selectAnswer opt =>
      simp only [stepExam]
      split
      · exact ⟨h1, h2⟩
      · exact ⟨h1, h2⟩
  | clickNext =>
      simp only [stepExam]
      split
      · split
        · split
          · exact ⟨h1, h2⟩
          · exact ⟨h1, h2⟩
        · exact ⟨h1, h2⟩
      · exact ⟨h1, h2⟩
  | clickPrev =>
      simp only [stepExam]
      split
      · split
        · exact ⟨h1, h2⟩
        · exact ⟨h1, h2⟩
      · exact ⟨h1, h2⟩
  | tick =>
      simp only [stepExam]
      split
      · exact ⟨h1, h2⟩
      · next hG =>
          have hSt : s.examStarted = true := by
            revert hG
            cases s.examStarted <;> simp
          have hF : s.examFinished = false := by
            revert hG
            cases s.examFinished <;> simp
          split
          · exact examInv_finish ⟨h1, h2⟩ hF (h2 hSt)
          · exact ⟨h1, h2⟩
  | clickFinish =>
      simp only [stepExam]
      split
      · next hS =>
          obtain ⟨hq, _, hf⟩ := finishButtonShown_props hS
          exact examInv_finish ⟨h1, h2⟩ hf hq
      · exact ⟨h1, h2⟩

theorem examInv_runFrom {s : ExamState} (hInv : examInv s) :
    ∀ evs : List ExamEvent, examInv (runExamFrom s evs) := by
  intro evs
  induction evs generalizing s with
  | nil => exact hInv
  | cons e rest ih => exact ih (examInv_step e hInv)

theorem finishButtonShown_false_of_finished {s : ExamState} (hF : s.examFinished = true) :
    finishButtonShown s = false := by
  unfold finishButtonShown examScreenShown
  rw [hF]
  simp

/-- C1: finishing the exam (explicit Finish click, countdown reaching zero,
or both paths firing in one run) reports exactly one ExamResult upward, and
once the controller is Finished, further finish requests (Finish click or
timer firing) are strict no-ops. Conjuncts: (1) along any event trace from
mount, the number of reported results is 1 when Finished and 0 before;
(2) in a Finished state both finish paths leave the state untouched;
(3) a Finish click on the live exam screen appends exactly one result and
transitions to Finished; (4) the timer firing at zero on a started,
unfinished exam appends exactly one result and transitions to Finished. -/
theorem c1_exam_single_finish :
    (∀ evs : List ExamEvent,
        (runExam evs).savedResults.length
          = (if (runExam evs).examFinished then 1 else 0))
    ∧ (∀ s : ExamState, s.examFinished = true →
        stepExam s .clickFinish = s ∧ stepExam s .tick = s)
    ∧ (∀ (s : ExamState) (qs : List QuizQuestion),
        s.questions = some qs → finishButtonShown s = true →
          (stepExam s .clickFinish).savedResults
            = s.savedResults ++ [⟨calculateScore (some qs) s.answers, qs.length⟩]
          ∧ (stepExam s .clickFinish).examFinished = true)
    ∧ (∀ (s : ExamState) (qs : List QuizQuestion),
        s.questions = some qs → s.examStarted = true → s.examFinished = false →
        s.timeLeft = 0 →
          (stepExam s .tick).savedResults
            = s.savedResults ++ [⟨calculateScore (some qs) s.answers, qs.length⟩]
          ∧ (stepExam s .tick).examFinished = true) := by
  refine ⟨?_, ?_, ?_, ?_⟩
  · intro evs
    exact (examInv_runFrom examInv_init evs).1
  · intro s hF
    constructor
    · simp [stepExam, finishButtonShown_false_of_finished hF]
    · simp [stepExam, hF]
  · intro s qs hqs hBtn
    have hstep : stepExam s .clickFinish = finishExamFn s := by
      simp [stepExam, hBtn]
    rw [hstep]
    refine ⟨?_, (finishExamFn_fields s).1⟩
    rw [finishExamFn_savedResults hqs, hqs]
  · intro s qs hqs hSt hF hT
    have hstep : stepExam s .tick = finishExamFn s := by
      simp [stepExam, hSt, hF, hT]
    rw [hstep]
    refine ⟨?_, (finishExamFn_fields s).1⟩
    rw [finishExamFn_savedResults hqs, hqs]

/-- A concrete multiple-choice question used to instantiate exam theorems. -/
def examQ : QuizQuestion :=
  { question := "q", options := ["a", "b"], correctAnswer := "a", explanation := none }

/-- A concrete Finished exam state. -/
def examFinishedSt : ExamState :=
  { questions := some [examQ]
    isLoading := false
    error := none
    examStarted := false
    examFinished := true
    timeLeft := 0
    currentQuestionIndex := 0
    answers := [some "a"]
    savedResults := [{ score := 1, total := 1 }] }

/-- A concrete live exam state on the last question. -/
def examLiveSt : ExamState :=
  { questions := some [examQ]
    isLoading := false
    error := none
    examStarted := true
    examFinished := false
    timeLeft := 5
    currentQuestionIndex := 0
    answers := [some "a"]
    savedResults := [] }

/-- Witness for C1 at concrete inputs: a full fetch-start-finish run, a
Finished state absorbing both finish paths, and a live Finish click
appending exactly one result. -/
theorem c1_exam_single_finish_witness :
    ((runExam [ExamEvent.fetchSuccess [examQ], ExamEvent.clickStart,
        ExamEvent.clickFinish]).savedResults.length
      = (if (runExam [ExamEvent.fetchSuccess [examQ], ExamEvent.clickStart,
          ExamEvent.clickFinish]).examFinished then 1 else 0))
    ∧ (stepExam examFinishedSt .clickFinish = examFinishedSt
        ∧ stepExam examFinishedSt .tick = examFinishedSt)
    ∧ ((stepExam examLiveSt .clickFinish).savedResults
        = examLiveSt.savedResults
            ++ [⟨calculateScore (some [examQ]) examLiveSt.answers, [examQ].length⟩]
      ∧ (stepExam examLiveSt .clickFinish).examFinished = true) :=
  ⟨c1_exam_single_finish.1 _,
   c1_exam_single_finish.2.1 examFinishedSt rfl,
   c1_exam_single_finish.2.2.1 examLiveSt [examQ] rfl (by decide)⟩

/-- C4: the exam score is a pure function of the answers array and the
question set. For any answers array reached from any starting array by any
sequence of answer overwrites (`handleAnswerSelect` writes slot i), the
computed score equals the count of indices whose stored answer is present
and equals that question's `correctAnswer` (unanswered slots count as
incorrect), and re-invoking the computation yields the same result. -/
theorem c4_exam_score_purity :
    ∀ (qs : List QuizQuestion) (answers : List (Option String))
      (ops : List (Nat × String)),
      calculateScore (some qs) (ops.foldl (fun acc p => acc.set p.1 (some p.2)) answers)
        = (List.range (ops.foldl (fun acc p => acc.set p.1 (some p.2)) answers).length).countP
            (fun i =>
              decide
                ((ops.foldl (fun acc p => acc.set p.1 (some p.2)) answers).getD i none ≠ none
                  ∧ (ops.foldl (fun acc p => acc.set p.1 (some p.2)) answers).getD i none
                      = (qs.get? i).map QuizQuestion.correctAnswer))
      ∧ calculateScore (some qs) (ops.foldl (fun acc p => acc.set p.1 (some p.2)) answers)
          = calculateScore (some qs) (ops.foldl (fun acc p => acc.set p.1 (some p.2)) answers) := by
  intro qs answers ops
  refine ⟨?_, rfl⟩
  set final := ops.foldl (fun acc p => acc.set p.1 (some p.2)) answers with hfinal
  rw [calculateScore_eq_countP]
  apply List.countP_congr
  intro i _
  simp only [decide_eq_true_eq]
  exact answerMatches_iff qs i (final.getD i none)

/-- Modelled from the spec: the content generator is an external
collaborator outside this repository (spec section 4.2); its exam response
contract is an ordered list of exactly 25 QuizQuestion. `generateExam`
(src/unnamed/part_003 lines 197-239) returns the generator's parsed `quiz`
array verbatim without re-validating the count. -/
def examGeneratorContract (qs : List QuizQuestion) : Prop :=
  qs.length = 25

/-- `generateExam` (src/unnamed/part_003 lines 197-239): no cache; the
parsed `quiz` array of the generator response is returned unchanged. -/
def generateExam (response : List QuizQuestion) : List QuizQuestion :=
  response

/-- C9: under the generator's 25-question contract, a successful exam fetch
stores exactly the generator's 25 ordered questions verbatim, the countdown
is at 30 minutes (1800 seconds), and the answers array is pre-sized to the
question count with every slot unanswered. -/
theorem c9_exam_fetch_shape :
    ∀ qs : List QuizQuestion, examGeneratorContract qs →
      EXAM_DURATION = 30 * 60
      ∧ (stepExam examInit (.fetchSuccess (generateExam qs))).questions = some qs
      ∧ generateExam qs = qs
      ∧ (generateExam qs).length = 25
      ∧ (stepExam examInit (.fetchSuccess (generateExam qs))).answers.length = 25
      ∧ (∀ a ∈ (stepExam examInit (.fetchSuccess (generateExam qs))).answers, a = none)
      ∧ (stepExam examInit (.fetchSuccess (generateExam qs))).timeLeft = 30 * 60 := by
  intro qs hqs
  have hstep : stepExam examInit (.fetchSuccess (generateExam qs))
      = { examInit with
            questions := some qs
            answers := List.replicate qs.length none
            isLoading := false } := by
    simp [stepExam, examInit, generateExam]
  refine ⟨rfl, ?_, rfl, hqs, ?_, ?_, ?_⟩
  · rw [hstep]
  · rw [hstep]
    simpa using hqs
  · rw [hstep]
    intro a ha
    exact List.eq_of_mem_replicate ha
  · rw [hstep]
    rfl

/-- Witness for C9 at a concrete 25-question generator response. -/
theorem c9_exam_fetch_shape_witness :
    examGeneratorContract (List.replicate 25 examQ)
    ∧ (stepExam examInit (.fetchSuccess (generateExam (List.replicate 25 examQ)))).answers.length
        = 25 :=
  ⟨rfl,
   (c9_exam_fetch_shape (List.replicate 25 examQ) rfl).2.2.2.2.1⟩

/-- C6: vocabulary toggling is a true set toggle on `completedVocabulary`:
toggling w removes it if present and adds it otherwise, no other word's
membership changes, the no-duplicates property is preserved, and toggling w
twice from the same starting set returns the original set exactly (as a
set: the result is a permutation of the original duplicate-free list). -/
theorem c6_vocab_toggle :
    ∀ (S : List String) (w : String), S.Nodup →
      (w ∈ vocabToggle S w ↔ w ∉ S)
      ∧ (∀ v, v ≠ w → (v ∈ vocabToggle S w ↔ v ∈ S))
      ∧ (vocabToggle S w).Nodup
      ∧ (vocabToggle (vocabToggle S w) w).Perm S := by
  intro S w hS
  refine ⟨?_, ?_, vocabToggle_nodup hS w, vocabToggle_toggle_perm hS w⟩
  · have h := vocabToggle_mem_iff (S := S) w w
    simpa using h
  · intro v hv
    have h := vocabToggle_mem_iff (S := S) w v
    simpa [hv] using h

/-- Witness for C6 on the concrete set ["apple", "bee"] and word "apple". -/
theorem c6_vocab_toggle_witness :
    (["apple", "bee"] : List String).Nodup
    ∧ ("apple" ∈ vocabToggle ["apple", "bee"] "apple" ↔ "apple" ∉ ["apple", "bee"])
    ∧ (vocabToggle (vocabToggle ["apple", "bee"] "apple") "apple").Perm ["apple", "bee"] :=
  ⟨by decide,
   (c6_vocab_toggle ["apple", "bee"] "apple" (by decide)).1,
   (c6_vocab_toggle ["apple", "bee"] "apple" (by decide)).2.2.2⟩

theorem markSectionComplete_of_mem {p : TopicProgress} {s : ContentSectionType}
    (h : s ∈ p.completedSections) : markSectionComplete p s = p := by
  simp [markSectionComplete, h]

theorem markSectionComplete_of_not_mem {p : TopicProgress} {s : ContentSectionType}
    (h : s ∉ p.completedSections) :
    markSectionComplete p s
      = { completedVocabulary := p.completedVocabulary
          completedSections := p.completedSections ++ [s] } := by
  simp [markSectionComplete, mergeProgress, h]

/-- C7: marking a section complete when already present changes nothing at
all (no duplicate entry, no other field touched); in general the mark never
changes `completedVocabulary`, never changes the other section's
membership, is idempotent, and preserves the no-duplicates property of
`completedSections`. -/
theorem c7_section_mark_idempotent :
    ∀ (p : TopicProgress) (s : ContentSectionType),
      (s ∈ p.completedSections → markSectionComplete p s = p)
      ∧ (markSectionComplete p s).completedVocabulary = p.completedVocabulary
      ∧ (∀ t, t ≠ s →
          (t ∈ (markSectionComplete p s).completedSections ↔ t ∈ p.completedSections))
      ∧ markSectionComplete (markSectionComplete p s) s = markSectionComplete p s
      ∧ (p.completedSections.Nodup → (markSectionComplete p s).completedSections.Nodup) := by
  intro p s
  by_cases h : s ∈ p.completedSections
  · have hm := markSectionComplete_of_mem h
    refine ⟨fun _ => hm, by rw [hm], fun t _ => by rw [hm], ?_, by rw [hm]; exact id⟩
    rw [hm, hm]
  · have hm := markSectionComplete_of_not_mem h
    refine ⟨fun hmem => absurd hmem h, by rw [hm], ?_, ?_, ?_⟩
    · intro t ht
      rw [hm]
      simp [ht]
    · have hmem : s ∈ (markSectionComplete p s).completedSections := by
        rw [hm]
        simp
      exact markSectionComplete_of_mem hmem
    · intro hnd
      rw [hm]
      simp [List.nodup_append, hnd, h]

/-- A concrete TopicProgress used to instantiate progress theorems. -/
def progW : TopicProgress :=
  { completedVocabulary := ["cat"], completedSections := [ContentSectionType.lesson] }

/-- Witness for C7 at a concrete progress value: re-marking the already
present lesson section changes nothing, and marking practice leaves the
vocabulary untouched. -/
theorem c7_section_mark_idempotent_witness :
    markSectionComplete progW ContentSectionType.lesson = progW
    ∧ (markSectionComplete progW ContentSectionType.practice).completedVocabulary
        = progW.completedVocabulary :=
  ⟨(c7_section_mark_idempotent progW ContentSectionType.lesson).1 (by decide),
   (c7_section_mark_idempotent progW ContentSectionType.practice).2.1⟩

/-- A target/native bilingual pair (src/unnamed/part_002: explanation,
examples, warnings entries). -/
structure LangPair where
  target : String
  native : String
deriving DecidableEq, Repr

/-- A vocabulary item (src/unnamed/part_002: `VocabularyItem`). -/
structure VocabularyItem where
  target : String
  native : String
  pronunciation : Option String
deriving DecidableEq, Repr

/-- Lesson content (src/unnamed/part_002: `LessonContent`). -/
structure LessonContent where
  explanation : LangPair
  examples : List LangPair
  warnings : List LangPair
  vocabulary : List VocabularyItem
deriving DecidableEq, Repr

/-- A reading text (src/unnamed/part_002: `TextItem`). -/
structure TextItem where
  title : String
  content : String
deriving DecidableEq, Repr

/-- A free-text follow-up task (src/unnamed/part_002: `TaskItem`). -/
structure TaskItem where
  instruction : String
  prompt : String
  suggestedAnswer : String
deriving DecidableEq, Repr

/-- A comprehensive practice session (src/unnamed/part_002:
`ComprehensivePractice`). -/
structure ComprehensivePractice where
  readingText : TextItem
  comprehensionQuiz : List QuizQuestion
  followUpTasks : List TaskItem
deriving DecidableEq, Repr

/-- A curriculum topic (src/unnamed/part_002: `Topic`). -/
structure Topic where
  id : String
  title : String
  emoji : String
deriving DecidableEq, Repr

/-- `sessionStorage` cache for one content kind plus the generator call
counter (src/unnamed/part_003). `entries` is the key/value store with
latest-write-first lookup; `calls` counts generator invocations; the
generator itself is passed in as a response stream indexed by call number,
so nothing about its determinism is assumed. -/
structure CacheState (α : Type) where
  entries : List (String × α)
  calls : Nat
deriving Repr

/-- Empty cache at application-session start. -/
def cacheInit {α : Type} : CacheState α :=
  { entries := [], calls := 0 }

/-- Cache key of `generateLessonContent` (src/unnamed/part_003 line 61). -/
def lessonCacheKey (level : Level) (topic : Topic) : String :=
  "lesson-" ++ levelStr level ++ "-" ++ topic.id

/-- Cache key of `generateComprehensivePractice` (src/unnamed/part_003
line 155). -/
def practiceCacheKey (level : Level) (topic : Topic) : String :=
  "comprehensive-practice-" ++ levelStr level ++ "-" ++ topic.id

/-- `generateLessonContent` (src/unnamed/part_003 lines 60-110): return the
cached entry if present, otherwise invoke the generator, store the parsed
response under the key, and return it. -/
def generateLessonContent (gen : Nat → LessonContent) (level : Level) (topic : Topic)
    (st : CacheState LessonContent) : LessonContent × CacheState LessonContent :=
  let cacheKey := lessonCacheKey level topic
  match st.entries.lookup cacheKey with
  | some cachedData => (cachedData, st)
  | none =>
      let content := gen st.calls
      (content, { entries := (cacheKey, content) :: st.entries, calls := st.calls + 1 })

/-- `generateComprehensivePractice` (src/unnamed/part_003 lines 154-195):
same cache discipline under the practice key. -/
def generateComprehensivePractice (gen : Nat → ComprehensivePractice) (level : Level)
    (topic : Topic) (st : CacheState ComprehensivePractice) :
    ComprehensivePractice × CacheState ComprehensivePractice :=
  let cacheKey := practiceCacheKey level topic
  match st.entries.lookup cacheKey with
  | some cachedData => (cachedData, st)
  | none =>
      let content := gen st.calls
      (content, { entries := (cacheKey, content) :: st.entries, calls := st.calls + 1 })

/-- C3: for each content kind and any (level, topic), two fetches within one
application session return identical content with the generator invoked
exactly once, and any cache hit is returned verbatim with the state (hence
the call count) unchanged — even for a generator whose responses differ
from call to call. -/
theorem c3_cache_correctness :
    (∀ (gen : Nat → LessonContent) (level : Level) (topic : Topic),
        (generateLessonContent gen level topic
            (generateLessonContent gen level topic cacheInit).2).1
          = (generateLessonContent gen level topic cacheInit).1
        ∧ (generateLessonContent gen level topic cacheInit).2.calls = 1
        ∧ (generateLessonContent gen level topic
            (generateLessonContent gen level topic cacheInit).2).2.calls = 1)
    ∧ (∀ (gen : Nat → ComprehensivePractice) (level : Level) (topic : Topic),
        (generateComprehensivePractice gen level topic
            (generateComprehensivePractice gen level topic cacheInit).2).1
          = (generateComprehensivePractice gen level topic cacheInit).1
        ∧ (generateComprehensivePractice gen level topic cacheInit).2.calls = 1
        ∧ (generateComprehensivePractice gen level topic
            (generateComprehensivePractice gen level topic cacheInit).2).2.calls = 1)
    ∧ (∀ (gen : Nat → LessonContent) (level : Level) (topic : Topic)
        (st : CacheState LessonContent) (c : LessonContent),
        st.entries.lookup (lessonCacheKey level topic) = some c →
          generateLessonContent gen level topic st = (c, st))
    ∧ (∀ (gen : Nat → ComprehensivePractice) (level : Level) (topic : Topic)
        (st : CacheState ComprehensivePractice) (c : ComprehensivePractice),
        st.entries.lookup (practiceCacheKey level topic) = some c →
          generateComprehensivePractice gen level topic st = (c, st)) := by
  refine ⟨?_, ?_, ?_, ?_⟩
  · intro gen level topic
    simp [generateLessonContent, cacheInit, List.lookup]
  · intro gen level topic
    simp [generateComprehensivePractice, cacheInit, List.lookup]
  · intro gen level topic st c h
    simp [generateLessonContent, h]
  · intro gen level topic st c h
    simp [generateComprehensivePractice, h]

/-- A concrete lesson content value. -/
def lessonW : LessonContent :=
  { explanation := { target := "e", native := "k" }
    examples := []
    warnings := []
    vocabulary := [{ target := "cat", native := "m", pronunciation := none }] }

/-- A concrete topic. -/
def topicW : Topic := { id := "present-simple", title := "Present Simple", emoji := "x" }

/-- Witness for C3's cache-hit conjunct at a concrete pre-populated cache. -/
theorem c3_cache_correctness_witness :
    (CacheState.entries
        { entries := [(lessonCacheKey Level.A1 topicW, lessonW)], calls := 1 }).lookup
        (lessonCacheKey Level.A1 topicW) = some lessonW
    ∧ generateLessonContent (fun _ => lessonW) Level.A1 topicW
        { entries := [(lessonCacheKey Level.A1 topicW, lessonW)], calls := 1 }
        = (lessonW, { entries := [(lessonCacheKey Level.A1 topicW, lessonW)], calls := 1 }) :=
  ⟨by simp [List.lookup],
   c3_cache_correctness.2.2.1 (fun _ => lessonW) Level.A1 topicW
     { entries := [(lessonCacheKey Level.A1 topicW, lessonW)], calls := 1 }
     lessonW (by simp [List.lookup])⟩

/-- A single exam attempt (src/unnamed/part_002: `ExamResult`). -/
structure ExamResult where
  date : String
  score : Nat
  total : Nat
deriving DecidableEq, Repr

/-- A user (src/unnamed/part_002: `User`); `progress` is the topic-id map
and `examHistory` is optional as in the TS type. -/
structure User where
  name : String
  level : Level
  avatar : Option String
  progress : List (String × TopicProgress)
  examHistory : Option (List ExamResult)
deriving DecidableEq, Repr

/-- A stored account (src/App.tsx: `accounts[name] = { password, data }`). -/
structure Account where
  password : String
  data : User
deriving DecidableEq, Repr

/-- `persistUserUpdate` (src/App.tsx lines 18-28): when an account under the
user's name exists, overwrite that account's `data` with the updated user;
otherwise leave the store untouched. -/
def persistUserUpdate (accounts : List (String × Account)) (updatedUser : User) :
    List (String × Account) :=
  if (accounts.lookup updatedUser.name).isSome then
    accounts.map (fun p =>
      if p.1 == updatedUser.name then (p.1, { p.2 with data := updatedUser }) else p)
  else accounts

/-- `handleLevelChange` (src/App.tsx lines 73-79): spread the current user
with the new level, set it as the in-memory user, and persist it. -/
def handleLevelChange (user : Option User) (accounts : List (String × Account))
    (newLevel : Level) : Option User × List (String × Account) :=
  match user with
  | some u =>
      let updatedUser := { u with level := newLevel }
      (some updatedUser, persistUserUpdate accounts updatedUser)
  | none => (user, accounts)

/-- `handleSaveExamResult` (src/App.tsx lines 98-108): append exactly one
dated result to the user's exam history and persist. -/
def handleSaveExamResult (user : Option User) (accounts : List (String × Account))
    (result : SavedResult) (date : String) : Option User × List (String × Account) :=
  match user with
  | some u =>
      let newResult : ExamResult := { date := date, score := result.score, total := result.total }
      let updatedUser := { u with examHistory := some ((u.examHistory.getD []) ++ [newResult]) }
      (some updatedUser, persistUserUpdate accounts updatedUser)
  | none => (user, accounts)

theorem lookup_map_update (l : List (String × Account)) (name : String)
    (f : Account → Account) :
    (l.map (fun p => if p.1 == name then (p.1, f p.2) else p)).lookup name
      = (l.lookup name).map f := by
  induction l with
  | nil => rfl
  | cons hd tl ih =>
      obtain ⟨k, v⟩ := hd
      simp only [List.map_cons]
      by_cases hkeq : k = name
      · subst hkeq
        rw [if_pos (beq_self_eq_true k)]
        simp [List.lookup_cons]
      · have hb : (k == name) = false := beq_eq_false_iff_ne.mpr hkeq
        have hnb : (name == k) = false := beq_eq_false_iff_ne.mpr (Ne.symm hkeq)
        rw [if_neg (by simp [hb])]
        rw [List.lookup_cons, List.lookup_cons, hnb]
        exact ih

theorem lookup_map_other (l : List (String × Account)) (name other : String)
    (f : Account → Account) (h : other ≠ name) :
    (l.map (fun p => if p.1 == name then (p.1, f p.2) else p)).lookup other
      = l.lookup other := by
  induction l with
  | nil => rfl
  | cons hd tl ih =>
      obtain ⟨k, v⟩ := hd
      simp only [List.map_cons]
      by_cases hkeq : k = name
      · subst hkeq
        have hob : (other == k) = false := beq_eq_false_iff_ne.mpr h
        rw [if_pos (beq_self_eq_true k)]
        rw [List.lookup_cons, List.lookup_cons, hob]
        exact ih
      · have hb : (k == name) = false := beq_eq_false_iff_ne.mpr hkeq
        rw [if_neg (by simp [hb])]
        rw [List.lookup_cons, List.lookup_cons]
        cases hok : (other == k) with
        | true => rfl
        | false => exact ih

/-- C10: changing the learning level updates only the `level` field: the
in-memory user keeps name, avatar, progress and exam history; the persisted
account record under the user's name holds exactly the updated user (so the
same four fields are unchanged there), and every other account is
untouched. -/
theorem c10_level_change_frame :
    ∀ (u : User) (accounts : List (String × Account)) (newLevel : Level),
      ((handleLevelChange (some u) accounts newLevel).1
          = some { u with level := newLevel })
      ∧ (∀ u', (handleLevelChange (some u) accounts newLevel).1 = some u' →
          u'.level = newLevel ∧ u'.name = u.name ∧ u'.avatar = u.avatar
          ∧ u'.progress = u.progress ∧ u'.examHistory = u.examHistory)
      ∧ (∀ acc, accounts.lookup u.name = some acc →
          (handleLevelChange (some u) accounts newLevel).2.lookup u.name
            = some { acc with data := { u with level := newLevel } })
      ∧ (∀ otherName, otherName ≠ u.name →
          (handleLevelChange (some u) accounts newLevel).2.lookup otherName
            = accounts.lookup otherName) := by
  intro u accounts newLevel
  refine ⟨rfl, ?_, ?_, ?_⟩
  · intro u' hu'
    simp only [handleLevelChange, Option.some.injEq] at hu'
    subst hu'
    exact ⟨rfl, rfl, rfl, rfl, rfl⟩
  · intro acc hacc
    show (persistUserUpdate accounts { u with level := newLevel }).lookup u.name = _
    unfold persistUserUpdate
    have hname : User.name { u with level := newLevel } = u.name := rfl
    rw [hname]
    have hsome : (accounts.lookup u.name).isSome = true := by
      rw [hacc]
      rfl
    rw [if_pos hsome]
    rw [lookup_map_update accounts u.name
      (fun a => { a with data := { u with level := newLevel } }), hacc]
    rfl
  · intro otherName hother
    show (persistUserUpdate accounts { u with level := newLevel }).lookup otherName = _
    unfold persistUserUpdate
    have hname : User.name { u with level := newLevel } = u.name := rfl
    rw [hname]
    by_cases hsome : (accounts.lookup u.name).isSome = true
    · rw [if_pos hsome]
      exact lookup_map_other accounts u.name otherName
        (fun a => { a with data := { u with level := newLevel } }) hother
    · rw [if_neg hsome]

/-- A concrete user. -/
def userW : User :=
  { name := "aru"
    level := Level.A1
    avatar := none
    progress := [("present-simple", progW)]
    examHistory := some [{ date := "2024-01-01", score := 10, total := 25 }] }

/-- A concrete account store holding that user. -/
def accountsW : List (String × Account) :=
  [("aru", { password := "cGFzcw==", data := userW })]

/-- Witness for C10 at the concrete user and store: after a level change the
persisted record holds the updated user and the in-memory progress and exam
history are unchanged. -/
theorem c10_level_change_frame_witness :
    (accountsW.lookup userW.name = some { password := "cGFzcw==", data := userW })
    ∧ ((handleLevelChange (some userW) accountsW Level.B2).2.lookup userW.name
        = some { password := "cGFzcw=="
                 data := { userW with level := Level.B2 } })
    ∧ (∀ u', (handleLevelChange (some userW) accountsW Level.B2).1 = some u' →
        u'.level = Level.B2 ∧ u'.name = userW.name ∧ u'.avatar = userW.avatar
        ∧ u'.progress = userW.progress ∧ u'.examHistory = userW.examHistory) :=
  ⟨by simp [accountsW, userW, List.lookup],
   (c10_level_change_frame userW accountsW Level.B2).2.2.1
     { password := "cGFzcw==", data := userW } (by simp [accountsW, userW, List.lookup]),
   (c10_level_change_frame userW accountsW Level.B2).2.1⟩

/-- Per-task feedback (src/unnamed/part_001 line 35): text, loading flag,
optional correctness verdict. -/
structure TaskFeedback where
  text : String
  loading : Bool
  isCorrect : Option Bool
deriving DecidableEq, Repr

/-- The `TopicView` component state (src/unnamed/part_001): one field per
`useState` hook, the App-held current progress for the bound topic
(`user.progress[topic.id]`, App.tsx lines 84-96 and 126-136), the render
snapshots of `progress` captured by the pending fetch closures (the mount
effect's and `handleGeneratePractice`'s), the answer-evaluation generator
call counter, and the number of outstanding practice fetches. -/
structure TopicSessionState where
  lessonContent : Option LessonContent
  practiceContent : Option ComprehensivePractice
  isLoadingLesson : Bool
  isLoadingPractice : Bool
  error : Option String
  userAnswers : List (Nat × String)
  taskFeedback : List (Nat × TaskFeedback)
  progress : TopicProgress
  lessonSnapshot : TopicProgress
  practiceSnapshot : Option TopicProgress
  checkCalls : Nat
  practiceFetches : Nat
deriving DecidableEq, Repr

/-- Mount state of `TopicView` with the user's existing progress `p0` (or
the empty default): the lesson fetch is issued immediately and its closure
captures the first render's progress. -/
def sessionInit (p0 : TopicProgress) : TopicSessionState :=
  { lessonContent := none
    practiceContent := none
    isLoadingLesson := true
    isLoadingPractice := false
    error := none
    userAnswers := []
    taskFeedback := []
    progress := p0
    lessonSnapshot := p0
    practiceSnapshot := none
    checkCalls := 0
    practiceFetches := 0 }

/-- Events of the topic session: fetch continuations, user clicks and
typing. `lessonResolve`/`practiceResolve`/`checkResolve` are the `await`
continuations of the corresponding generator calls. -/
inductive SessionEvent where
  | lessonResolve (content : LessonContent)
  | lessonReject (msg : String)
  | generatePracticeClick
  | practiceResolve (content : ComprehensivePractice)
  | practiceReject (msg : String)
  | vocabToggleClick (word : String)
  | typeAnswer (idx : Nat) (text : String)
  | checkAnswerClick (idx : Nat)
  | checkResolve (idx : Nat) (fb : String) (isCorrect : Bool)
  | checkReject (idx : Nat) (msg : String)
deriving DecidableEq, Repr

/-- The check-answer button's disabled condition (src/unnamed/part_001
line 190): `!userAnswer.trim() || feedback?.loading || isChecked`, with
`isChecked = feedback && !feedback.loading` (line 174). -/
def checkDisabled (s : TopicSessionState) (idx : Nat) : Bool :=
  (((s.userAnswers.lookup idx).getD "").trim == "")
  || (match s.taskFeedback.lookup idx with
      | some f => f.loading
      | none => false)
  || (match s.taskFeedback.lookup idx with
      | some f => !f.loading
      | none => false)

/-- One event of the topic session controller, guarded exactly as the
source guards it. Fetch continuations run against the snapshot their
closure captured (src/unnamed/part_001: the mount effect lines 39-63 and
`handleGeneratePractice` lines 98-118 both read `progress` and call the
`handleProgressUpdate` of the render that created them); clicks fire only
when their control is rendered and enabled; `handleCheckAnswer` (lines
120-133) additionally re-checks the empty-answer guard itself. -/
def stepSession (s : TopicSessionState) (e : SessionEvent) : TopicSessionState :=
  match e with
  | .lessonResolve content =>
      if s.isLoadingLesson then
        let s1 := { s with lessonContent := some content, isLoadingLesson := false }
        if ContentSectionType.lesson ∈ s.lessonSnapshot.completedSections then s1
        else
          { s1 with progress :=
              (mergeProgress s.lessonSnapshot
                ⟨none, some (s.lessonSnapshot.completedSections ++ [ContentSectionType.lesson])⟩) }
      else s
  | .lessonReject msg =>
      if s.isLoadingLesson then
        { s with error := some msg, isLoadingLesson := false }
      else s
  | .generatePracticeClick =>
      if s.isLoadingPractice then s
      else if s.practiceContent.isSome = true ∨ s.error = none then
        { s with practiceContent := none
                 userAnswers := []
                 taskFeedback := []
                 isLoadingPractice := true
                 error := none
                 practiceSnapshot := some s.progress
                 practiceFetches := s.practiceFetches + 1 }
      else s
  | .practiceResolve content =>
      if s.isLoadingPractice then
        let s1 := { s with practiceContent := some content
                           isLoadingPractice := false
                           practiceSnapshot := none
                           practiceFetches := s.practiceFetches - 1 }
        match s.practiceSnapshot with
        | some snap =>
            if ContentSectionType.practice ∈ snap.completedSections then s1
            else
              { s1 with progress :=
                  (mergeProgress snap
                    ⟨none, some (snap.completedSections ++ [ContentSectionType.practice])⟩) }
        | none => s1
      else s
  | .practiceReject msg =>
      if s.isLoadingPractice then
        { s with error := some msg
                 isLoadingPractice := false
                 practiceSnapshot := none
                 practiceFetches := s.practiceFetches - 1 }
      else s
  | .vocabToggleClick word =>
      match s.lessonContent with
      | some lc =>
          if word ∈ lc.vocabulary.map VocabularyItem.target then
            { s with progress := vocabToggleProgress s.progress word }
          else s
      | none => s
  | .typeAnswer idx text =>
      match s.practiceContent with
      | some c =>
          if idx < c.followUpTasks.length then
            if (match s.taskFeedback.lookup idx with
                | some f => !f.loading
                | none => false) then s
            else { s with userAnswers := (idx, text) :: s.userAnswers }
          else s
      | none => s
  | .checkAnswerClick idx =>
      match s.practiceContent with
      | some c =>
          if idx < c.followUpTasks.length then
            if checkDisabled s idx then s
            else if (s.userAnswers.lookup idx).getD "" = ""
                ∨ ((s.userAnswers.lookup idx).getD "").trim = "" then s
            else
              { s with
                  taskFeedback :=
                    ((idx, { text := "", loading := true, isCorrect := none }) :: s.taskFeedback)
                  checkCalls := s.checkCalls + 1 }
          else s
      | none => s
  | .checkResolve idx fb isCorrect =>
      match s.taskFeedback.lookup idx with
      | some f =>
          if f.loading then
            { s with taskFeedback :=
                ((idx, { text := fb, loading := false, isCorrect := some isCorrect })
                  :: s.taskFeedback) }
          else s
      | none => s
  | .checkReject idx msg =>
      match s.taskFeedback.lookup idx with
      | some f =>
          if f.loading then
            { s with taskFeedback :=
                ((idx, { text := msg, loading := false, isCorrect := none }) :: s.taskFeedback) }
          else s
      | none => s

/-- Run a topic session from mount over an event sequence. -/
def runSession (p0 : TopicProgress) (evs : List SessionEvent) : TopicSessionState :=
  evs.foldl stepSession (sessionInit p0)

/-- Reachability invariant: the number of outstanding practice fetches is 1
exactly while `isLoading.practice` is set, 0 otherwise. -/
def sessionInv (s : TopicSessionState) : Prop :=
  s.practiceFetches = (if s.isLoadingPractice then 1 else 0)

theorem sessionInv_init (p0 : TopicProgress) : sessionInv (sessionInit p0) := by
  simp [sessionInv, sessionInit]

theorem sessionInv_of_preserved {s t : TopicSessionState} (h : sessionInv s)
    (hf : t.practiceFetches = s.practiceFetches)
    (hl : t.isLoadingPractice = s.isLoadingPractice) : sessionInv t := by
  unfold sessionInv at h ⊢
  rw [hf, hl]
  exact h

theorem sessionInv_step {s : TopicSessionState} (e : SessionEvent) (h : sessionInv s) :
    sessionInv (stepSession s e) := by
  cases e with
  | lessonResolve content =>
      simp only [stepSession]
      split
      · split
        · exact sessionInv_of_preserved h rfl rfl
        · exact sessionInv_of_preserved h rfl rfl
      · exact h
  | lessonReject msg =>
      simp only [stepSession]
      split
      · exact sessionInv_of_preserved h rfl rfl
      · exact h
  | generatePracticeClick =>
      simp only [stepSession]
      split
      · exact h
      · next hL =>
          have hL' : s.isLoadingPractice = false := by
            revert hL
            cases s.isLoadingPractice <;> simp
          have h0 : s.practiceFetches = 0 := by
            unfold sessionInv at h
            rw [hL'] at h
            simpa using h
          split
          · unfold sessionInv
            simp [h0]
          · exact h
  | practiceResolve content =>
      simp only [stepSession]
      split
      · next hL =>
          have h1 : s.practiceFetches = 1 := by
            unfold sessionInv at h
            rw [hL] at h
            simpa using h
          split
          · split
            · unfold sessionInv
              simp [h1]
            · unfold sessionInv
              simp [h1]
          · unfold sessionInv
            simp [h1]
      · exact h
  | practiceReject msg =>
      simp only [stepSession]
      split
      · next hL =>
          have h1 : s.practiceFetches = 1 := by
            unfold sessionInv at h
            rw [hL] at h
            simpa using h
          unfold sessionInv
          simp [h1]
      · exact h
  | vocabToggleClick word =>
      simp only [stepSession]
      split
      · split
        · exact sessionInv_of_preserved h rfl rfl
        · exact h
      · exact h
  | typeAnswer idx text =>
      simp only [stepSession]
      split
      · split
        · split
          · exact h
          · exact sessionInv_of_preserved h rfl rfl
        · exact h
      · exact h
  | checkAnswerClick idx =>
      simp only [stepSession]
      split
      · split
        · split
          · exact h
          · split
            · exact h
            · exact sessionInv_of_preserved h rfl rfl
        · exact h
      · exact h
  | checkResolve idx fb isCorrect =>
      simp only [stepSession]
      split
      · split
        · exact sessionInv_of_preserved h rfl rfl
        · exact h
      · exact h
  | checkReject idx msg =>
      simp only [stepSession]
      split
      · split
        · exact sessionInv_of_preserved h rfl rfl
        · exact h
      · exact h

theorem sessionInv_run (p0 : TopicProgress) (evs : List SessionEvent) :
    sessionInv (runSession p0 evs) := by
  show sessionInv (evs.foldl stepSession (sessionInit p0))
  have hgen : ∀ (l : List SessionEvent) (s : TopicSessionState), sessionInv s →
      sessionInv (l.foldl stepSession s) := by
    intro l
    induction l with
    | nil => exact fun s hs => hs
    | cons e rest ih => exact fun s hs => ih _ (sessionInv_step e hs)
  exact hgen evs _ (sessionInv_init p0)

/-- C8: a generate/regenerate practice request is ignored while a practice
fetch is in flight; otherwise prior practice content and all per-task
answer/feedback state are reset in the same step that issues the fetch; and
along any event trace the number of outstanding practice fetches equals the
loading flag (so it never exceeds one). -/
theorem c8_practice_generation :
    (∀ s : TopicSessionState, s.isLoadingPractice = true →
        stepSession s .generatePracticeClick = s)
    ∧ (∀ s : TopicSessionState, s.isLoadingPractice = false →
        (s.practiceContent.isSome = true ∨ s.error = none) →
          (stepSession s .generatePracticeClick).practiceContent = none
          ∧ (stepSession s .generatePracticeClick).userAnswers = []
          ∧ (stepSession s .generatePracticeClick).taskFeedback = []
          ∧ (stepSession s .generatePracticeClick).isLoadingPractice = true
          ∧ (stepSession s .generatePracticeClick).practiceFetches
              = s.practiceFetches + 1)
    ∧ (∀ (p0 : TopicProgress) (evs : List SessionEvent),
        (runSession p0 evs).practiceFetches
          = (if (runSession p0 evs).isLoadingPractice then 1 else 0)
        ∧ (runSession p0 evs).practiceFetches ≤ 1) := by
  refine ⟨?_, ?_, ?_⟩
  · intro s hL
    simp [stepSession, hL]
  · intro s hL hShown
    have hstep : stepSession s .generatePracticeClick
        = { s with practiceContent := none
                   userAnswers := []
                   taskFeedback := []
                   isLoadingPractice := true
                   error := none
                   practiceSnapshot := some s.progress
                   practiceFetches := s.practiceFetches + 1 } := by
      simp [stepSession, hL, hShown]
    rw [hstep]
    exact ⟨rfl, rfl, rfl, rfl, rfl⟩
  · intro p0 evs
    have hinv := sessionInv_run p0 evs
    unfold sessionInv at hinv
    refine ⟨hinv, ?_⟩
    rw [hinv]
    split <;> omega

/-- A session state whose practice fetch is in flight. -/
def loadingPracticeSt : TopicSessionState :=
  { sessionInit progW with isLoadingPractice := true, practiceFetches := 1 }

/-- Witness for C8: the in-flight request is a strict no-op, a fresh request
from mount resets task state and issues one fetch, and two immediate clicks
leave a single outstanding fetch. -/
theorem c8_practice_generation_witness :
    (loadingPracticeSt.isLoadingPractice = true
      ∧ stepSession loadingPracticeSt .generatePracticeClick = loadingPracticeSt)
    ∧ ((sessionInit progW).isLoadingPractice = false
      ∧ (stepSession (sessionInit progW) .generatePracticeClick).userAnswers = []
      ∧ (stepSession (sessionInit progW) .generatePracticeClick).practiceFetches
          = (sessionInit progW).practiceFetches + 1)
    ∧ (runSession progW
        [SessionEvent.generatePracticeClick, SessionEvent.generatePracticeClick]).practiceFetches
        ≤ 1 :=
  ⟨⟨rfl, c8_practice_generation.1 loadingPracticeSt rfl⟩,
   ⟨rfl,
    (c8_practice_generation.2.1 (sessionInit progW) rfl (Or.inr rfl)).2.1,
    (c8_practice_generation.2.1 (sessionInit progW) rfl (Or.inr rfl)).2.2.2.2⟩,
   (c8_practice_generation.2.2 progW
      [SessionEvent.generatePracticeClick, SessionEvent.generatePracticeClick]).2⟩

/-- C5: a task-answer submission for index `idx` is a strict no-op (state
unchanged; in particular the per-task feedback and the evaluation-call
counter) whenever the stored answer is empty or whitespace, or an
evaluation for that index is in flight, or a prior evaluation for that
index has resolved. -/
theorem c5_task_submission_noop :
    ∀ (s : TopicSessionState) (idx : Nat),
      ((((s.userAnswers.lookup idx).getD "").trim = "")
        ∨ (∃ f, s.taskFeedback.lookup idx = some f ∧ f.loading = true)
        ∨ (∃ f, s.taskFeedback.lookup idx = some f ∧ f.loading = false)) →
      stepSession s (.checkAnswerClick idx) = s := by
  intro s idx h
  have hdis : checkDisabled s idx = true := by
    unfold checkDisabled
    rcases h with h | ⟨f, hf, hl⟩ | ⟨f, hf, hl⟩
    · simp [h]
    · simp [hf, hl]
    · simp [hf, hl]
  simp only [stepSession]
  cases hc : s.practiceContent with
  | none => rfl
  | some c =>
      by_cases hidx : idx < c.followUpTasks.length
      · simp [hidx, hdis]
      · simp [hidx]

/-- A follow-up task. -/
def taskQ : TaskItem :=
  { instruction := "Complete the sentence:", prompt := "I ... tea.", suggestedAnswer := "drink" }

/-- A concrete practice session with one follow-up task. -/
def practiceW : ComprehensivePractice :=
  { readingText := { title := "t", content := "c" }
    comprehensionQuiz := []
    followUpTasks := [taskQ] }

/-- A session state in which task 0 already has resolved feedback. -/
def checkedTaskSt : TopicSessionState :=
  { sessionInit progW with
      lessonContent := some lessonW
      isLoadingLesson := false
      practiceContent := some practiceW
      userAnswers := [(0, "hello")]
      taskFeedback := [(0, { text := "ok", loading := false, isCorrect := some true })] }

/-- Witness for C5: re-submitting task 0 after its evaluation resolved is a
strict no-op. -/
theorem c5_task_submission_noop_witness :
    (∃ f, checkedTaskSt.taskFeedback.lookup 0 = some f ∧ f.loading = false)
    ∧ stepSession checkedTaskSt (.checkAnswerClick 0) = checkedTaskSt :=
  ⟨⟨{ text := "ok", loading := false, isCorrect := some true }, rfl, rfl⟩,
   c5_task_submission_noop checkedTaskSt 0
     (Or.inr (Or.inr ⟨{ text := "ok", loading := false, isCorrect := some true }, rfl, rfl⟩))⟩

/-- C2 fails on the code: in the interleaving where a vocabulary toggle
completes while the practice fetch is in flight, the fetch continuation
merges onto the progress snapshot its closure captured when the fetch was
issued, so the resulting TopicProgress has the new practice mark but has
lost the toggled word ("cat" is absent although it was toggled in). This
theorem evaluates the embedded code on that interleaving. -/
theorem c2_stale_snapshot_loses_toggle :
    (runSession { completedVocabulary := [], completedSections := [] }
        [SessionEvent.lessonResolve lessonW, SessionEvent.generatePracticeClick,
         SessionEvent.vocabToggleClick "cat", SessionEvent.practiceResolve practiceW]).progress
      = { completedVocabulary := []
          completedSections := [ContentSectionType.lesson, ContentSectionType.practice] }
    ∧ ("cat" ∉ (runSession { completedVocabulary := [], completedSections := [] }
        [SessionEvent.lessonResolve lessonW, SessionEvent.generatePracticeClick,
         SessionEvent.vocabToggleClick "cat",
         SessionEvent.practiceResolve practiceW]).progress.completedVocabulary)
    ∧ ("cat" ∈ (runSession { completedVocabulary := [], completedSections := [] }
        [SessionEvent.lessonResolve lessonW, SessionEvent.generatePracticeClick,
         SessionEvent.vocabToggleClick "cat"]).progress.completedVocabulary) := by
  refine ⟨?_, ?_, ?_⟩ <;> decide
